import Mathlib

/-!
Shallow embedding of the `tri-buffer` crate (`src/lib.rs`).

The crate is a single-producer / single-consumer triple buffer: three slots
of type `T`, a packed `back_info : u8` word (low two bits = index of the
back slot, bit 2 = dirty flag), a writer-private `input_idx`, a
reader-private `output_idx`, and two exclusivity flags.

All fields that are atomics in Rust (`AtomicU8`, `AtomicBool`) are modelled
as plain `Nat` / `Bool` fields of an explicit state record; every operation
is a pure function on that record, mirroring the sequential semantics of
the Rust methods.  Rust array indexing `buffers[i]` panics when `i ≥ 3`;
the embedding returns `Option` there (`none` models the panic), and
likewise `none` models the `panic!` in `get_reader` / `get_writer`.
-/

namespace TriBuffer

/-- Rust constant `BACK_INDEX_MASK: u8 = 0b11`. -/
def BACK_INDEX_MASK : Nat := 3

/-- Rust constant `BACK_DIRTY_BIT: u8 = 0b100`. -/
def BACK_DIRTY_BIT : Nat := 4

/-- The state of a `TripleBuffer<T>`: the three slots and the five
scalar fields (`back_info`, `input_idx`, `output_idx` are `AtomicU8` in
the source, the two existence flags are `AtomicBool`). -/
structure TripleBuffer (T : Type) where
  buffers : Fin 3 → T
  back_info : Nat
  input_idx : Nat
  output_idx : Nat
  is_reader_exist : Bool
  is_writer_exist : Bool

variable {T : Type}

/-- The back-slot index encoded in the low two bits of the state word. -/
def backIdx (s : TripleBuffer T) : Nat :=
  s.back_info &&& BACK_INDEX_MASK

/-- Rust `BufferReader::updated`: load `back_info` and test the dirty bit. -/
def updated (s : TripleBuffer T) : Bool :=
  s.back_info &&& BACK_DIRTY_BIT != 0

/-- Rust `BufferReader::output_buffer`: read the slot named by `output_idx`.
`none` models the Rust index-out-of-bounds panic. -/
def output_buffer (s : TripleBuffer T) : Option T :=
  if h : s.output_idx < 3 then some (s.buffers ⟨s.output_idx, h⟩) else none

/-- Rust `BufferReader::update`: if `updated()`, swap `back_info` with the
current `output_idx` (no dirty bit) and store the former back index into
`output_idx`.  Returns the new state and the `updated` flag returned by
the Rust method. -/
def update (s : TripleBuffer T) : TripleBuffer T × Bool :=
  if updated s then
    let former_back_info := s.back_info
    ({ s with
        back_info := s.output_idx
        output_idx := former_back_info &&& BACK_INDEX_MASK }, true)
  else
    (s, false)

/-- Rust `BufferReader::read`: `update()` then `output_buffer()`.  Returns the
post-`update` state together with the value read. -/
def read (s : TripleBuffer T) : Option (TripleBuffer T × T) :=
  let u := update s
  match output_buffer u.1 with
  | some v => some (u.1, v)
  | none => none

/-- Rust `BufferWriter::consumed`: load `back_info` and test that the dirty
bit is clear. -/
def consumed (s : TripleBuffer T) : Bool :=
  s.back_info &&& BACK_DIRTY_BIT == 0

/-- Rust `BufferWriter::publish`: swap `back_info` with
`input_idx | BACK_DIRTY_BIT`, store the former back index into
`input_idx`, and return whether the former dirty bit was set. -/
def publish (s : TripleBuffer T) : TripleBuffer T × Bool :=
  let former_back_info := s.back_info
  ({ s with
      back_info := s.input_idx ||| BACK_DIRTY_BIT
      input_idx := former_back_info &&& BACK_INDEX_MASK },
   former_back_info &&& BACK_DIRTY_BIT != 0)

/-- Rust `BufferWriter::input_buffer`: read access to the slot named by
`input_idx` (`none` models the index panic). -/
def input_buffer (s : TripleBuffer T) : Option T :=
  if h : s.input_idx < 3 then some (s.buffers ⟨s.input_idx, h⟩) else none

/-- Rust `BufferWriter::write`: `*input_buffer() = value; publish();`
(the `bool` returned by `publish` is discarded). -/
def write (v : T) (s : TripleBuffer T) : Option (TripleBuffer T) :=
  if h : s.input_idx < 3 then
    some (publish { s with buffers := Function.update s.buffers ⟨s.input_idx, h⟩ v }).1
  else
    none

/-- Rust `TripleBuffer::new_const(s1, s2, s3)`. -/
def new_const (s1 s2 s3 : T) : TripleBuffer T where
  buffers := fun i =>
    match i with
    | ⟨0, _⟩ => s1
    | ⟨1, _⟩ => s2
    | ⟨2, _⟩ => s3
  back_info := 0
  input_idx := 1
  output_idx := 2
  is_reader_exist := false
  is_writer_exist := false

/-- Rust `TripleBuffer::new(generator)`, which evaluates
`Self::new_const(generator(), generator(), generator())`.  The Rust
generator is an effectful closure; its effect is made explicit by
threading a generator state `σ` through the three calls (Rust evaluates
the three arguments left to right). -/
def new {σ : Type} (generator : σ → T × σ) (g0 : σ) : TripleBuffer T × σ :=
  let r1 := generator g0
  let r2 := generator r1.2
  let r3 := generator r2.2
  (new_const r1.1 r2.1 r3.1, r3.2)

/-- Rust `impl Drop for BufferReader`: store `false` to `is_reader_exist`. -/
def drop_reader (s : TripleBuffer T) : TripleBuffer T :=
  { s with is_reader_exist := false }

/-- Rust `impl Drop for BufferWriter`: store `false` to `is_writer_exist`. -/
def drop_writer (s : TripleBuffer T) : TripleBuffer T :=
  { s with is_writer_exist := false }

/-- Rust `TripleBuffer::get_reader`, sequential semantics: with no concurrent
thread the compare-exchange on `is_reader_exist` is deterministic — it
succeeds iff the flag is `false`.  `none` models the
`panic!("Reader already exists")` branch. -/
def get_reader (s : TripleBuffer T) : Option (TripleBuffer T) :=
  if s.is_reader_exist then none else some { s with is_reader_exist := true }

/-- Rust `TripleBuffer::get_writer`, sequential semantics (see `get_reader`);
`none` models the `panic!("Writer already exists")` branch. -/
def get_writer (s : TripleBuffer T) : Option (TripleBuffer T) :=
  if s.is_writer_exist then none else some { s with is_writer_exist := true }

/-- One outcome of the `compare_exchange(false, true, Acquire, Relaxed)`
call inside the acquisition loops of `get_reader` / `get_writer`:
`Ok(_)`, `Err(false)` (lost a race against a concurrent release) or
`Err(true)` (a live handle exists). -/
inductive CasResult where
  | ok
  | errFalse
  | errTrue
deriving DecidableEq

/-- What an acquisition loop eventually does: returns a handle, or hits
the `panic!` arm. -/
inductive AcqOutcome where
  | acquired
  | panicked
deriving DecidableEq

/-- The `loop { match compare_exchange(...) { Ok(_) => return ...,
Err(false) => continue, Err(true) => panic!(...) } }` body shared by
`get_reader` and `get_writer`, run over the sequence of CAS outcomes the
environment produces; `none` means the loop is still spinning after the
listed outcomes. -/
def acquireLoop : List CasResult → Option AcqOutcome
  | [] => none
  | CasResult.ok :: _ => some AcqOutcome.acquired
  | CasResult.errTrue :: _ => some AcqOutcome.panicked
  | CasResult.errFalse :: rest => acquireLoop rest

/-- The operations a program can perform on the buffer through the two
handles (the value-returning inspections keep the state unchanged). -/
inductive Op (T : Type) where
  | write (v : T)
  | publishOp
  | inputBuffer
  | updateOp
  | updatedOp
  | readOp
  | consumedOp
  | outputBuffer

/-- Effect of one operation on the buffer state (`none` models a Rust
panic). -/
def step : Op T → TripleBuffer T → Option (TripleBuffer T)
  | Op.write v, s => write v s
  | Op.publishOp, s => some (publish s).1
  | Op.inputBuffer, s => (input_buffer s).map fun _ => s
  | Op.updateOp, s => some (update s).1
  | Op.updatedOp, s => some s
  | Op.readOp, s => (read s).map Prod.fst
  | Op.consumedOp, s => some s
  | Op.outputBuffer, s => (output_buffer s).map fun _ => s

/-- Run a sequence of operations. -/
def exec : List (Op T) → TripleBuffer T → Option (TripleBuffer T)
  | [], s => some s
  | op :: ops, s => (step op s).bind (exec ops)

/-- The slot-ownership invariant: the writer's index, the back index and
the reader's index are three distinct values below 3. -/
def Inv (s : TripleBuffer T) : Prop :=
  s.input_idx < 3 ∧ backIdx s < 3 ∧ s.output_idx < 3 ∧
    s.input_idx ≠ backIdx s ∧ s.input_idx ≠ s.output_idx ∧ backIdx s ≠ s.output_idx

instance (s : TripleBuffer T) : Decidable (Inv s) := by
  unfold Inv; infer_instance

instance [DecidableEq T] : DecidableEq (TripleBuffer T) := fun a b =>
  decidable_of_iff
    (a.buffers = b.buffers ∧ a.back_info = b.back_info ∧ a.input_idx = b.input_idx ∧
      a.output_idx = b.output_idx ∧ a.is_reader_exist = b.is_reader_exist ∧
      a.is_writer_exist = b.is_writer_exist)
    (by cases a; cases b; simp)

/-- Concrete `Nat` buffer after `write 7` on a fresh buffer; used by the
concrete instantiations of the general theorems. -/
def writeOnceState : TripleBuffer Nat :=
  (write 7 (new_const 0 0 0)).getD (new_const 0 0 0)

/-- Concrete `Nat` buffer after a successful `read` on `writeOnceState`. -/
def readOnceState : TripleBuffer Nat :=
  ((read writeOnceState).getD (new_const 0 0 0, 0)).1

/-- Concrete `Nat` buffer after `write 1; read; write 9` on a fresh
buffer. -/
def afterWritesState : TripleBuffer Nat :=
  (exec [Op.write 1, Op.readOp, Op.write 9] (new_const 0 0 0)).getD (new_const 0 0 0)

/-! ### Arithmetic of the packed state word -/

lemma and_mask_of_lt {n : Nat} (h : n < 4) : n &&& BACK_INDEX_MASK = n := by
  interval_cases n <;> rfl

lemma or_dirty_and_mask {n : Nat} (h : n < 4) :
    (n ||| BACK_DIRTY_BIT) &&& BACK_INDEX_MASK = n := by
  interval_cases n <;> rfl

lemma or_dirty_and_dirty {n : Nat} (h : n < 4) :
    (n ||| BACK_DIRTY_BIT) &&& BACK_DIRTY_BIT = 4 := by
  interval_cases n <;> rfl

lemma and_dirty_of_lt {n : Nat} (h : n < 4) : n &&& BACK_DIRTY_BIT = 0 := by
  interval_cases n <;> rfl

/-! ### Equations for the operations -/

lemma publish_fst (s : TripleBuffer T) :
    (publish s).1 = { s with
      back_info := s.input_idx ||| BACK_DIRTY_BIT
      input_idx := s.back_info &&& BACK_INDEX_MASK } := rfl

lemma publish_snd (s : TripleBuffer T) :
    (publish s).2 = (s.back_info &&& BACK_DIRTY_BIT != 0) := rfl

lemma update_of_updated {s : TripleBuffer T} (hu : updated s = true) :
    update s = ({ s with
      back_info := s.output_idx
      output_idx := s.back_info &&& BACK_INDEX_MASK }, true) := by
  simp [update, hu]

lemma update_of_not_updated {s : TripleBuffer T} (hu : updated s = false) :
    update s = (s, false) := by
  simp [update, hu]

lemma read_eq (s : TripleBuffer T) :
    read s = (output_buffer (update s).1).map (fun v => ((update s).1, v)) := by
  cases h : output_buffer (update s).1 <;> simp [read, h]

lemma write_eq_some {s : TripleBuffer T} (h : s.input_idx < 3) (v : T) :
    write v s =
      some (publish { s with buffers := Function.update s.buffers ⟨s.input_idx, h⟩ v }).1 := by
  simp [write, h]

lemma updated_publish {s : TripleBuffer T} (h : s.input_idx < 4) :
    updated (publish s).1 = true := by
  show (((s.input_idx ||| BACK_DIRTY_BIT) &&& BACK_DIRTY_BIT) != 0) = true
  rw [or_dirty_and_dirty h]
  rfl

lemma updated_update {s : TripleBuffer T} (ho : s.output_idx < 4) :
    updated (update s).1 = false := by
  by_cases hu : updated s = true
  · rw [update_of_updated hu]
    show ((s.output_idx &&& BACK_DIRTY_BIT) != 0) = false
    rw [and_dirty_of_lt ho]
    rfl
  · rw [update_of_not_updated (by simpa using hu)]
    simpa using hu

/-! ### The index-permutation invariant -/

lemma inv_new_const (s1 s2 s3 : T) : Inv (new_const s1 s2 s3) :=
  (by decide : (1 : Nat) < 3 ∧ 0 &&& BACK_INDEX_MASK < 3 ∧ (2 : Nat) < 3 ∧
    (1 : Nat) ≠ 0 &&& BACK_INDEX_MASK ∧ (1 : Nat) ≠ 2 ∧ 0 &&& BACK_INDEX_MASK ≠ 2)

lemma inv_publish {s : TripleBuffer T} (h : Inv s) : Inv (publish s).1 := by
  obtain ⟨hi, hb, ho, hib, hio, hbo⟩ := h
  have h4 : (s.input_idx ||| BACK_DIRTY_BIT) &&& BACK_INDEX_MASK = s.input_idx :=
    or_dirty_and_mask (by omega)
  rw [publish_fst]
  refine ⟨hb, ?_, ho, ?_, hbo, ?_⟩
  · show (s.input_idx ||| BACK_DIRTY_BIT) &&& BACK_INDEX_MASK < 3
    rw [h4]; exact hi
  · show s.back_info &&& BACK_INDEX_MASK ≠ (s.input_idx ||| BACK_DIRTY_BIT) &&& BACK_INDEX_MASK
    rw [h4]; exact Ne.symm hib
  · show (s.input_idx ||| BACK_DIRTY_BIT) &&& BACK_INDEX_MASK ≠ s.output_idx
    rw [h4]; exact hio

lemma inv_update {s : TripleBuffer T} (h : Inv s) : Inv (update s).1 := by
  obtain ⟨hi, hb, ho, hib, hio, hbo⟩ := h
  by_cases hu : updated s = true
  · rw [update_of_updated hu]
    have h3 : s.output_idx &&& BACK_INDEX_MASK = s.output_idx := and_mask_of_lt (by omega)
    refine ⟨hi, ?_, hb, ?_, hib, ?_⟩
    · show s.output_idx &&& BACK_INDEX_MASK < 3
      rw [h3]; exact ho
    · show s.input_idx ≠ s.output_idx &&& BACK_INDEX_MASK
      rw [h3]; exact hio
    · show s.output_idx &&& BACK_INDEX_MASK ≠ s.back_info &&& BACK_INDEX_MASK
      rw [h3]; exact Ne.symm hbo
  · rw [update_of_not_updated (by simpa using hu)]
    exact ⟨hi, hb, ho, hib, hio, hbo⟩

lemma inv_buffers_update {s : TripleBuffer T} (h : Inv s) (f : Fin 3 → T) :
    Inv { s with buffers := f } := h

lemma inv_write {s s' : TripleBuffer T} (h : Inv s) {v : T}
    (hw : write v s = some s') : Inv s' := by
  have hi : s.input_idx < 3 := h.1
  rw [write_eq_some hi v] at hw
  cases hw
  exact inv_publish (inv_buffers_update h _)

lemma inv_step {s s' : TripleBuffer T} (h : Inv s) {op : Op T}
    (hs : step op s = some s') : Inv s' := by
  cases op with
  | write v => exact inv_write h hs
  | publishOp => cases hs; exact inv_publish h
  | inputBuffer =>
    simp only [step, Option.map_eq_some'] at hs
    obtain ⟨_, _, rfl⟩ := hs
    exact h
  | updateOp => cases hs; exact inv_update h
  | updatedOp => cases hs; exact h
  | readOp =>
    simp only [step, read_eq, Option.map_map, Option.map_eq_some', Function.comp] at hs
    obtain ⟨_, _, rfl⟩ := hs
    exact inv_update h
  | consumedOp => cases hs; exact h
  | outputBuffer =>
    simp only [step, Option.map_eq_some'] at hs
    obtain ⟨_, _, rfl⟩ := hs
    exact h

lemma inv_exec {ops : List (Op T)} {s s' : TripleBuffer T} (h : Inv s)
    (he : exec ops s = some s') : Inv s' := by
  induction ops generalizing s with
  | nil => cases he; exact h
  | cons op ops ih =>
    simp only [exec, Option.bind_eq_some] at he
    obtain ⟨sm, h1, h2⟩ := he
    exact ih (inv_step h h1) h2

lemma exec_append (l1 l2 : List (Op T)) (s : TripleBuffer T) :
    exec (l1 ++ l2) s = (exec l1 s).bind (exec l2) := by
  induction l1 generalizing s with
  | nil => rfl
  | cons op l1 ih =>
    simp only [List.cons_append, exec]
    cases step op s with
    | none => rfl
    | some sm => simp [ih]

lemma read_after_write {s s' : TripleBuffer T} (h : Inv s) {v : T}
    (hw : write v s = some s') : ∃ s'', read s' = some (s'', v) := by
  have hi : s.input_idx < 3 := h.1
  rw [write_eq_some hi v] at hw
  cases hw
  set sW : TripleBuffer T :=
    { s with buffers := Function.update s.buffers ⟨s.input_idx, hi⟩ v } with hsW
  have hiW : sW.input_idx = s.input_idx := rfl
  have hup : updated (publish sW).1 = true := updated_publish (by rw [hiW]; omega)
  have ho2 : (update (publish sW).1).1.output_idx = s.input_idx := by
    rw [update_of_updated hup]
    show (sW.input_idx ||| BACK_DIRTY_BIT) &&& BACK_INDEX_MASK = s.input_idx
    rw [hiW]
    exact or_dirty_and_mask (by omega)
  have hb2 : (update (publish sW).1).1.buffers = sW.buffers := by
    rw [update_of_updated hup]
    rfl
  have hob : output_buffer (update (publish sW).1).1 = some v := by
    simp only [output_buffer, ho2, hb2]
    rw [dif_pos hi]
    simp [hsW]
  exact ⟨(update (publish sW).1).1, by rw [read_eq, hob]; rfl⟩

lemma inv_multiset {s : TripleBuffer T} (h : Inv s) :
    ({s.input_idx, backIdx s, s.output_idx} : Multiset Nat) = {0, 1, 2} := by
  obtain ⟨hi, hb, ho, hib, hio, hbo⟩ := h
  set a := s.input_idx
  set b := backIdx s
  set c := s.output_idx
  interval_cases a <;> interval_cases b <;> interval_cases c <;>
    first
      | decide
      | (exfalso; omega)

lemma updated_after_read {s s' : TripleBuffer T} {v : T} (h : Inv s)
    (hr : read s = some (s', v)) : updated s' = false := by
  rw [read_eq, Option.map_eq_some'] at hr
  obtain ⟨a, ha, hsv⟩ := hr
  cases hsv
  exact updated_update (by have := h.2.2.1; omega)

/-! ### The claims -/

/-- C1, counterexample: the claim says `publish()` returns `true` iff the
dirty bit of the state word read by the exchange was clear.  In the
freshly constructed buffer the dirty bit is clear, yet `publish` returns
`false`. -/
theorem publish_return_counterexample :
    ¬ (((publish (new_const (0 : Nat) 0 0)).2 = true) ↔
        (new_const (0 : Nat) 0 0).back_info &&& BACK_DIRTY_BIT = 0) := by
  decide

/-- C1, amended: for every state of the buffer, `publish()` returns `true`
iff the dirty bit of the back-slot state word read by the exchange was
SET, i.e. iff the previous back-slot data had NOT yet been consumed by
the reader. -/
theorem publish_return_dirty_iff (T : Type) (s : TripleBuffer T) :
    (publish s).2 = true ↔ s.back_info &&& BACK_DIRTY_BIT ≠ 0 := by
  rw [publish_snd]
  simp [bne_iff_ne]

/-- C2: in the acquisition loops of `get_writer` / `get_reader`, a CAS
failure that observed the exclusivity flag as `false` is retried
automatically and invisibly: any number of `Err(false)` outcomes followed
by `Ok` acquires the handle with no failure reported, `Err(false)`
outcomes alone keep the loop retrying, and the fatal `panic!` arm is
reached only when some CAS observes the flag as `true`. -/
theorem acquire_retry_transparent :
    (∀ n : Nat,
      acquireLoop (List.replicate n CasResult.errFalse ++ [CasResult.ok]) =
        some AcqOutcome.acquired) ∧
    (∀ n : Nat, acquireLoop (List.replicate n CasResult.errFalse) = none) ∧
    (∀ l : List CasResult,
      acquireLoop l = some AcqOutcome.panicked → CasResult.errTrue ∈ l) := by
  refine ⟨?_, ?_, ?_⟩
  · intro n
    induction n with
    | zero => rfl
    | succ n ih => simpa [List.replicate_succ, acquireLoop] using ih
  · intro n
    induction n with
    | zero => rfl
    | succ n ih => simpa [List.replicate_succ, acquireLoop] using ih
  · intro l hl
    induction l with
    | nil => simp [acquireLoop] at hl
    | cons x rest ih =>
      cases x with
      | ok => simp [acquireLoop] at hl
      | errTrue => exact List.mem_cons_self _ _
      | errFalse =>
        simp only [acquireLoop] at hl
        exact List.mem_cons_of_mem _ (ih hl)

/-- C2 witness: two lost races then success acquires the handle, and a
loop run that panicked did observe the flag as `true`. -/
theorem acquire_retry_transparent_witness :
    acquireLoop (List.replicate 2 CasResult.errFalse ++ [CasResult.ok]) =
        some AcqOutcome.acquired ∧
    CasResult.errTrue ∈ [CasResult.errFalse, CasResult.errTrue] :=
  ⟨acquire_retry_transparent.1 2,
   acquire_retry_transparent.2.2 [CasResult.errFalse, CasResult.errTrue] rfl⟩

/-- C7: a `get_reader` while the reader flag is set (a live Reader)
reaches the panic (`none`); after the Reader's drop stores `false` to the
flag, `get_reader` succeeds again.  Symmetrically for `get_writer`. -/
theorem handle_exclusivity (T : Type) (s s' : TripleBuffer T) :
    (get_reader s = some s' →
      get_reader s' = none ∧ ∃ s'', get_reader (drop_reader s') = some s'') ∧
    (get_writer s = some s' →
      get_writer s' = none ∧ ∃ s'', get_writer (drop_writer s') = some s'') := by
  constructor
  · intro hr
    rw [get_reader] at hr
    split at hr
    · cases hr
    · cases hr
      exact ⟨rfl, ⟨_, rfl⟩⟩
  · intro hw
    rw [get_writer] at hw
    split at hw
    · cases hw
    · cases hw
      exact ⟨rfl, ⟨_, rfl⟩⟩

/-- C7 witness: concrete acquisition, double acquisition, drop and
re-acquisition on a fresh `Nat` buffer, for both roles. -/
theorem handle_exclusivity_witness :
    (get_reader { new_const (0 : Nat) 0 0 with is_reader_exist := true } = none ∧
      ∃ s'', get_reader
        (drop_reader { new_const (0 : Nat) 0 0 with is_reader_exist := true }) = some s'') ∧
    (get_writer { new_const (0 : Nat) 0 0 with is_writer_exist := true } = none ∧
      ∃ s'', get_writer
        (drop_writer { new_const (0 : Nat) 0 0 with is_writer_exist := true }) = some s'') :=
  ⟨(handle_exclusivity Nat (new_const 0 0 0) _).1 rfl,
   (handle_exclusivity Nat (new_const 0 0 0) _).2 rfl⟩

/-- C8: `new_const` places the three explicit values into slots 0, 1, 2;
`new` invokes the generator exactly three times (the threaded generator
state advances from 0 to 3), once per slot, in order; the initial state
has back-slot index 0, writer index 1, reader index 2, dirty flag clear
and both exclusivity flags false. -/
theorem construction_spec (T : Type) (f : Nat → T) (s1 s2 s3 : T) :
    new (fun n => (f n, n + 1)) 0 = (new_const (f 0) (f 1) (f 2), 3) ∧
    (new_const s1 s2 s3).buffers ⟨0, by decide⟩ = s1 ∧
    (new_const s1 s2 s3).buffers ⟨1, by decide⟩ = s2 ∧
    (new_const s1 s2 s3).buffers ⟨2, by decide⟩ = s3 ∧
    backIdx (new_const s1 s2 s3) = 0 ∧
    updated (new_const s1 s2 s3) = false ∧
    (new_const s1 s2 s3).input_idx = 1 ∧
    (new_const s1 s2 s3).output_idx = 2 ∧
    (new_const s1 s2 s3).is_reader_exist = false ∧
    (new_const s1 s2 s3).is_writer_exist = false := by
  have h5 : backIdx (new_const s1 s2 s3) = 0 := by
    show (0 : Nat) &&& BACK_INDEX_MASK = 0
    decide
  have h6 : updated (new_const s1 s2 s3) = false := by
    show ((0 : Nat) &&& BACK_DIRTY_BIT != 0) = false
    decide
  exact ⟨rfl, rfl, rfl, rfl, h5, h6, rfl, rfl, rfl, rfl⟩

/-- C10: in the freshly constructed buffer, `update` swaps nothing and
returns `false`, and `read` / `output_buffer` return the third
constructor argument (the value in slot 2) with the state unchanged. -/
theorem fresh_buffer_initial_read (T : Type) (s1 s2 s3 : T) :
    update (new_const s1 s2 s3) = (new_const s1 s2 s3, false) ∧
    read (new_const s1 s2 s3) = some (new_const s1 s2 s3, s3) ∧
    output_buffer (new_const s1 s2 s3) = some s3 := by
  have hu : updated (new_const s1 s2 s3) = false := by
    show ((0 : Nat) &&& BACK_DIRTY_BIT != 0) = false
    decide
  have h1 : update (new_const s1 s2 s3) = (new_const s1 s2 s3, false) :=
    update_of_not_updated hu
  refine ⟨h1, ?_, rfl⟩
  rw [read_eq, h1]
  rfl

/-- C3: after any operation sequence ending in `write v` — which covers
`N` calls `write v_1, …, write v_N` with reads interleaved anywhere — the
next `read` yields exactly the last written value `v`. -/
theorem write_sequence_read_last (T : Type) (a b c : T)
    (ops : List (Op T)) (v : T) (s : TripleBuffer T)
    (he : exec (ops ++ [Op.write v]) (new_const a b c) = some s) :
    ∃ s', read s = some (s', v) := by
  rw [exec_append, Option.bind_eq_some] at he
  obtain ⟨sm, h1, h2⟩ := he
  have hInv : Inv sm := inv_exec (inv_new_const a b c) h1
  simp only [exec, Option.bind_eq_some] at h2
  obtain ⟨s1, hw, hs1⟩ := h2
  cases hs1
  exact read_after_write hInv hw

/-- C3 witness: after `write 1; read; write 9` from a fresh buffer the
final `read` yields 9. -/
theorem write_sequence_read_last_witness :
    ∃ s', read afterWritesState = some (s', 9) :=
  write_sequence_read_last Nat 0 0 0 [Op.write 1, Op.readOp] 9 afterWritesState
    (by decide)

/-- C4: in the initial state and after every sequence of the eight
operations, the writer's `input_idx`, the back-slot index in the low two
bits of the state word, and the reader's `output_idx` form a permutation
of {0, 1, 2}. -/
theorem indices_permutation_invariant (T : Type) (a b c : T)
    (ops : List (Op T)) (s : TripleBuffer T)
    (he : exec ops (new_const a b c) = some s) :
    ({s.input_idx, backIdx s, s.output_idx} : Multiset Nat) = {0, 1, 2} :=
  inv_multiset (inv_exec (inv_new_const a b c) he)

/-- C4 witness: the three indices after `write 1; read; write 9` from a
fresh buffer are a permutation of {0, 1, 2}. -/
theorem indices_permutation_invariant_witness :
    ({afterWritesState.input_idx, backIdx afterWritesState,
        afterWritesState.output_idx} : Multiset Nat) = {0, 1, 2} :=
  indices_permutation_invariant Nat 0 0 0 [Op.write 1, Op.readOp, Op.write 9]
    afterWritesState (by decide)

/-- C5: after construction `updated()` is false and `consumed()` is true;
any `write` (from a state satisfying the slot invariant, which every
reachable state does) leaves `updated()` true and preserves the
invariant — so `updated()` stays true across further writes; and after an
`update` or a successful `read`, `updated()` is false again. -/
theorem dirty_bit_lifecycle (T : Type) :
    (∀ s1 s2 s3 : T, updated (new_const s1 s2 s3) = false ∧
      consumed (new_const s1 s2 s3) = true) ∧
    (∀ (s : TripleBuffer T) (v : T) (s' : TripleBuffer T), Inv s →
      write v s = some s' → updated s' = true ∧ Inv s') ∧
    (∀ s : TripleBuffer T, Inv s → updated (update s).1 = false) ∧
    (∀ (s s' : TripleBuffer T) (v : T), Inv s → read s = some (s', v) →
      updated s' = false) := by
  refine ⟨?_, ?_, ?_, ?_⟩
  · intro s1 s2 s3
    constructor
    · show ((0 : Nat) &&& BACK_DIRTY_BIT != 0) = false
      decide
    · show ((0 : Nat) &&& BACK_DIRTY_BIT == 0) = true
      decide
  · intro s v s' hInv hw
    have hi : s.input_idx < 3 := hInv.1
    rw [write_eq_some hi v] at hw
    cases hw
    exact ⟨updated_publish (by show s.input_idx < 4; omega),
      inv_publish (inv_buffers_update hInv _)⟩
  · intro s hInv
    exact updated_update (by have := hInv.2.2.1; omega)
  · intro s s' v hInv hr
    exact updated_after_read hInv hr

/-- C5 witness: the dirty-bit lifecycle on a concrete `Nat` buffer —
fresh, after `write 7`, and after the following `update`. -/
theorem dirty_bit_lifecycle_witness :
    (updated (new_const (0 : Nat) 0 0) = false ∧
      consumed (new_const (0 : Nat) 0 0) = true) ∧
    updated writeOnceState = true ∧ Inv writeOnceState ∧
    updated (update writeOnceState).1 = false :=
  ⟨(dirty_bit_lifecycle Nat).1 0 0 0,
   ((dirty_bit_lifecycle Nat).2.1 (new_const 0 0 0) 7 writeOnceState
      (by decide) (by decide)).1,
   ((dirty_bit_lifecycle Nat).2.1 (new_const 0 0 0) 7 writeOnceState
      (by decide) (by decide)).2,
   (dirty_bit_lifecycle Nat).2.2.1 writeOnceState (by decide)⟩

/-- C6: after a successful `read` (from a state satisfying the slot
invariant), `updated()` is false, a second `update` swaps nothing,
returns `false` and leaves the state unchanged, and a second `read`
returns the identical state and value. -/
theorem reread_idempotent (T : Type) (s s' : TripleBuffer T) (v : T)
    (hInv : Inv s) (hr : read s = some (s', v)) :
    updated s' = false ∧ update s' = (s', false) ∧ read s' = some (s', v) := by
  rw [read_eq, Option.map_eq_some'] at hr
  obtain ⟨a, ha, hsv⟩ := hr
  cases hsv
  have hups : updated (update s).1 = false :=
    updated_update (by have := hInv.2.2.1; omega)
  refine ⟨hups, update_of_not_updated hups, ?_⟩
  rw [read_eq, update_of_not_updated hups]
  simp [ha]

/-- C6 witness: on the concrete buffer holding 7, re-reading after the
first `read` reports no update and returns the same state and value. -/
theorem reread_idempotent_witness :
    updated readOnceState = false ∧
    update readOnceState = (readOnceState, false) ∧
    read readOnceState = some (readOnceState, 7) :=
  reread_idempotent Nat writeOnceState readOnceState 7 (by decide) (by decide)

end TriBuffer
